import Mathlib

/-!
Verification of the opportunity-scoring pipeline of the solana-alpha-agent
service (src/index.ts), shallowly embedded in Lean. JS numbers are modelled
as `Rat` (every numeric constant in the pipeline is a small decimal); JS
strings as `String`; JS `undefined`/absent values as `Option`; the
`try`/`catch` structure of the HTTP clients as total functions over an
explicit outcome type describing what the network returned.
-/

namespace AlphaAgent

/-- JS `String.prototype.toLowerCase`, restricted to characters whose
simple lower-case mapping is the ASCII one.  All table keys and every
string compared in this development are ASCII, where the two coincide; the
full Unicode mappings JS also applies (e.g. U+212A KELVIN SIGN lower-cases
to "k") are outside this model. -/
def toLowerCase (s : String) : String :=
  ⟨s.data.map Char.toLower⟩

/-- Idea record carried on a narrative (field `ideas` in the TS interface);
never consulted by the scorer. -/
structure Idea where
  name : String
  description : String
  complexity : String
deriving Repr, DecidableEq

/-- TS interface `Narrative`.  `supporting_signals` is accessed with the
optional-chaining operator in the source, so it is modelled as an `Option`. -/
structure Narrative where
  name : String
  confidence : String
  direction : String
  explanation : String
  ideas : List Idea
  supporting_signals : Option (List String)
deriving Repr, DecidableEq

/-- TS interface `AlphaOpportunity`.  The numeric `confidence` is modelled
as a rational. -/
structure AlphaOpportunity where
  narrative : String
  action : String
  tokens : List String
  reasoning : String
  confidence : Rat
  risk : String
  suggested_allocation : String
deriving Repr, DecidableEq

/-- The static `NARRATIVE_TOKENS` record: lower-cased narrative name to
Solana mint addresses. -/
def NARRATIVE_TOKENS : List (String × List String) :=
  [("defi", ["JUPyiwrYJFskUPiHa7hkeR8VUtAeFoSYbKedZNsDvCN",
             "DezXAZ8z7PnrnRJjz3wXBoRgixCa6xjnB7YaB1pPB263"]),
   ("ai agents", ["FoqP7aTaibT5npFKYpYYADYY4Dc1GYVqJBJhV88PBvMV"]),
   ("trading", ["JUPyiwrYJFskUPiHa7hkeR8VUtAeFoSYbKedZNsDvCN"]),
   ("infrastructure", ["So11111111111111111111111111111111111111112"]),
   ("staking", ["mSoLzYCxHdYgdzU16g5QSh3i5K3z3KZK7ytfqcJm7So"]),
   ("rwa", []),
   ("memecoins", ["DezXAZ8z7PnrnRJjz3wXBoRgixCa6xjnB7YaB1pPB263"])]

/-- The value `NARRATIVE_TOKENS[narrative.name.toLowerCase()] || []` takes
for a name whose lower-casing is not an `Object.prototype` property name:
look the lower-cased name up among the own properties of the record,
default to the empty list.  On the twelve `Object.prototype` property
names the bracket access of the source instead finds the inherited member;
`tokensValue` below is the unrestricted model and `tokensValue_agrees`
proves the two coincide away from those names. -/
def lookupTokens (name : String) : List String :=
  (NARRATIVE_TOKENS.lookup (toLowerCase name)).getD []

/-- The property names every object literal inherits from
`Object.prototype` in a standard JS realm: bracket access with one of
these keys finds a truthy member (a function, or for `__proto__` the
prototype object itself) instead of `undefined`. -/
def objectProtoProps : List String :=
  ["constructor", "hasOwnProperty", "isPrototypeOf", "propertyIsEnumerable",
   "toLocaleString", "toString", "valueOf", "__proto__",
   "__defineGetter__", "__defineSetter__", "__lookupGetter__", "__lookupSetter__"]

/-- A value `NARRATIVE_TOKENS[key]` can evaluate to: `undefined`, an own
property (an array of mint strings), or a member inherited from
`Object.prototype` (truthy, not an array), recorded with its key. -/
inductive JsValue where
  | jsUndefined : JsValue
  | arr : List String → JsValue
  | protoMember : String → JsValue
deriving Repr, DecidableEq

/-- `NARRATIVE_TOKENS[key]`: own properties are found first, then the
prototype chain (`Object.prototype`), then `undefined`. -/
def tokensBracket (key : String) : JsValue :=
  match NARRATIVE_TOKENS.lookup key with
  | some ts => .arr ts
  | none => if key ∈ objectProtoProps then .protoMember key else .jsUndefined

/-- `v || []`: `undefined` is falsy and replaced by the empty array; an
array (even an empty one) and an inherited member are truthy and kept. -/
def jsOrEmptyArr (v : JsValue) : JsValue :=
  match v with
  | .jsUndefined => .arr []
  | .arr ts => .arr ts
  | .protoMember k => .protoMember k

/-- The value bound to `tokens` in the loop of `findAlpha`, with full
prototype-chain semantics:
`NARRATIVE_TOKENS[narrative.name.toLowerCase()] || []`. -/
def tokensValue (name : String) : JsValue :=
  jsOrEmptyArr (tokensBracket (toLowerCase name))

/-- `narrative.supporting_signals?.length || 0`: 0 when the field is absent,
otherwise its length (`length || 0` equals `length` since `0 || 0` is `0`). -/
def signalsCount (n : Narrative) : Nat :=
  match n.supporting_signals with
  | none => 0
  | some l => l.length

/-- The body of the `for` loop in `findAlpha`: the opportunity pushed for one
narrative, or `none` when no branch matches. The numeric constants 0.85,
0.6, 0.4 are the rationals 85/100, 60/100, 40/100 (each exactly
representable). -/
def scoreNarrative (n : Narrative) : Option AlphaOpportunity :=
  if n.confidence = "HIGH" ∧ n.direction = "ACCELERATING" then
    some { narrative := n.name
           action := "ACCUMULATE"
           tokens := lookupTokens n.name
           reasoning := n.name ++ " is a high-confidence accelerating narrative with "
             ++ toString (signalsCount n) ++ " supporting signals. " ++ n.explanation
           confidence := mkRat 85 100
           risk := "MEDIUM"
           suggested_allocation := "5-10% of portfolio" }
  else if n.confidence = "MEDIUM" then
    some { narrative := n.name
           action := if n.direction = "ACCELERATING" then "DCA" else "WATCHLIST"
           tokens := lookupTokens n.name
           reasoning := n.name ++ " showing " ++ toLowerCase n.direction ++ " trend. "
             ++ n.explanation
           confidence := if n.direction = "ACCELERATING" then mkRat 60 100 else mkRat 40 100
           risk := "LOW"
           suggested_allocation := if n.direction = "ACCELERATING"
             then "2-5% of portfolio" else "Watch only" }
  else none

/-- The comparator `(a, b) => b.confidence - a.confidence` passed to
`Array.prototype.sort`: `a` may stay before `b` exactly when the comparator
is non-positive, i.e. when `b.confidence ≤ a.confidence`. -/
def confDesc (a b : AlphaOpportunity) : Bool :=
  decide (b.confidence ≤ a.confidence)

/-- `findAlpha`: collect one opportunity per matching narrative in input
order, then sort by descending numeric confidence.  `Array.prototype.sort`
is stable (ECMAScript 2019) and the comparator is consistent, so it is
modelled by the stable `List.mergeSort`. -/
def findAlpha (narratives : List Narrative) : List AlphaOpportunity :=
  (narratives.filterMap scoreNarrative).mergeSort confDesc

/-- What `resp.json()` produced for the narrative fetch: a failed parse
(non-JSON body, `resp.json()` throws), or a parsed object whose
`narratives` field is either absent/falsy (`none`) or an array. -/
inductive JsonBody where
  | notJson : JsonBody
  | parsed : Option (List Narrative) → JsonBody
deriving Repr, DecidableEq

/-- Outcome of the outbound call in `fetchNarratives`: the `fetch` promise
rejected (network failure or timeout), or a response arrived carrying an
HTTP status code and a body. -/
inductive FetchResult where
  | fetchThrows : FetchResult
  | response : Nat → JsonBody → FetchResult
deriving Repr, DecidableEq

/-- The `try` block of `fetchNarratives`: `await fetch(...)` then
`await resp.json()` then `data.narratives || []`.  A rejected fetch or a
non-JSON body throws (modelled with `Except.error`); otherwise the
`narratives` field is returned when truthy, `[]` when absent.  The status
code is carried but — exactly as in the source, which never reads
`resp.ok` or `resp.status` — not consulted. -/
def fetchBody : FetchResult → Except String (List Narrative)
  | .fetchThrows => .error "fetch failed"
  | .response _ .notJson => .error "invalid json"
  | .response _ (.parsed none) => .ok []
  | .response _ (.parsed (some ns)) => .ok ns

/-- `fetchNarratives`: the `try` block with its `catch` handler, which logs
and returns `[]` on any thrown error. -/
def fetchNarratives (r : FetchResult) : List Narrative :=
  match fetchBody r with
  | .error _ => []
  | .ok ns => ns

/-- Outcome of the outbound call in `getTokenPrices`: the fetch or parse
threw, or a parsed object arrived whose `data` field is absent (`none`) or
is a list of `mint ↦ optional price` entries (`info.price` absent or falsy
is modelled as `none`). -/
inductive PriceFetchOutcome where
  | fetchThrows : PriceFetchOutcome
  | response : Option (List (String × Option Rat)) → PriceFetchOutcome
deriving Repr, DecidableEq

/-- `info.price || 0`: the price when truthy (non-zero), else `0`. -/
def jsOrZero (p : Option Rat) : Rat :=
  match p with
  | none => 0
  | some q => if q = 0 then 0 else q

/-- `getTokenPrices`: an empty mint list returns the empty map before any
network call; otherwise the upstream entries are folded into the map, a
thrown error leaving it empty.  The Boolean records whether the network
call was performed. -/
def getTokenPrices (mints : List String) (outcome : PriceFetchOutcome) :
    List (String × Rat) × Bool :=
  if mints = [] then ([], false)
  else
    match outcome with
    | .fetchThrows => ([], true)
    | .response none => ([], true)
    | .response (some entries) => (entries.map (fun e => (e.1, jsOrZero e.2)), true)

/-- `prices.get(t) || null`: the looked-up price when present and truthy
(non-zero), else the explicit absent marker `null`. -/
def jsOrNull (p : Option Rat) : Option Rat :=
  match p with
  | none => none
  | some q => if q = 0 then none else some q

/-- The `token_prices` entry list built by the report assembler in
`GET /alpha` and `POST /analyze`:
`Object.fromEntries(o.tokens.map((t) => [t, prices.get(t) || null]))`.
`Object.fromEntries` keys the resulting object by the first component. -/
def tokenPriceEntries (o : AlphaOpportunity) (prices : List (String × Rat)) :
    List (String × Option Rat) :=
  o.tokens.map (fun t => (t, jsOrNull (prices.lookup t)))

end AlphaAgent

namespace AlphaAgent

/-- The worked example narrative of the spec: HIGH and ACCELERATING. -/
def nDeFiHigh : Narrative :=
  { name := "DeFi", confidence := "HIGH", direction := "ACCELERATING",
    explanation := "x", ideas := [], supporting_signals := some ["a", "b"] }

/-- A MEDIUM, ACCELERATING narrative. -/
def nTradingMed : Narrative :=
  { name := "Trading", confidence := "MEDIUM", direction := "ACCELERATING",
    explanation := "y", ideas := [], supporting_signals := some ["s"] }

/-- A MEDIUM narrative with a non-ACCELERATING direction. -/
def nRwaMed : Narrative :=
  { name := "RWA", confidence := "MEDIUM", direction := "STABLE",
    explanation := "z", ideas := [], supporting_signals := none }

/-- A LOW-confidence narrative. -/
def nLow : Narrative :=
  { name := "Gaming", confidence := "LOW", direction := "ACCELERATING",
    explanation := "w", ideas := [], supporting_signals := none }

/-- A second MEDIUM narrative with a non-ACCELERATING direction, with the
same confidence score as `nRwaMed` but a different token set. -/
def nMemeMed : Narrative :=
  { name := "Memecoins", confidence := "MEDIUM", direction := "STABLE",
    explanation := "m", ideas := [], supporting_signals := none }

/-- The opportunity the loop pushes for `nDeFiHigh`. -/
def oDeFi : AlphaOpportunity :=
  { narrative := "DeFi", action := "ACCUMULATE",
    tokens := ["JUPyiwrYJFskUPiHa7hkeR8VUtAeFoSYbKedZNsDvCN",
               "DezXAZ8z7PnrnRJjz3wXBoRgixCa6xjnB7YaB1pPB263"],
    reasoning := "DeFi is a high-confidence accelerating narrative with 2 supporting signals. x",
    confidence := mkRat 85 100, risk := "MEDIUM",
    suggested_allocation := "5-10% of portfolio" }

/-- The opportunity the loop pushes for `nRwaMed`. -/
def oRwa : AlphaOpportunity :=
  { narrative := "RWA", action := "WATCHLIST", tokens := [],
    reasoning := "RWA showing stable trend. z",
    confidence := mkRat 40 100, risk := "LOW",
    suggested_allocation := "Watch only" }

/-- The opportunity the loop pushes for `nMemeMed`; its confidence equals
that of `oRwa`. -/
def oMeme : AlphaOpportunity :=
  { narrative := "Memecoins", action := "WATCHLIST",
    tokens := ["DezXAZ8z7PnrnRJjz3wXBoRgixCa6xjnB7YaB1pPB263"],
    reasoning := "Memecoins showing stable trend. m",
    confidence := mkRat 40 100, risk := "LOW",
    suggested_allocation := "Watch only" }

/-- An opportunity holding a single token identifier "X". -/
def oZeroTok : AlphaOpportunity :=
  { narrative := "d", action := "a", tokens := ["X"], reasoning := "r",
    confidence := 0, risk := "LOW", suggested_allocation := "s" }

/-- A price mapping covering the first token of `oDeFi` and omitting the
second. -/
def pJup : List (String × Rat) :=
  [("JUPyiwrYJFskUPiHa7hkeR8VUtAeFoSYbKedZNsDvCN", mkRat 3 2)]

/-- C1: a narrative with confidence HIGH and direction ACCELERATING makes the
loop body push exactly one opportunity, with action ACCUMULATE, numeric
confidence 0.85, risk MEDIUM and allocation "5-10% of portfolio"; the output
of findAlpha is a permutation of the pushed opportunities (one per matching
narrative), so that narrative contributes exactly one opportunity. -/
theorem claim_C1 (n : Narrative) (h1 : n.confidence = "HIGH")
    (h2 : n.direction = "ACCELERATING") :
    scoreNarrative n = some
      { narrative := n.name
        action := "ACCUMULATE"
        tokens := lookupTokens n.name
        reasoning := n.name ++ " is a high-confidence accelerating narrative with "
          ++ toString (signalsCount n) ++ " supporting signals. " ++ n.explanation
        confidence := mkRat 85 100
        risk := "MEDIUM"
        suggested_allocation := "5-10% of portfolio" } ∧
    ∀ ns : List Narrative, (findAlpha ns).Perm (ns.filterMap scoreNarrative) := by
  refine ⟨?_, fun ns => List.mergeSort_perm _ _⟩
  simp [scoreNarrative, h1, h2]

/-- C1 witness: the theorem applied to the spec's worked example. -/
theorem claim_C1_witness :
    nDeFiHigh.confidence = "HIGH" ∧ nDeFiHigh.direction = "ACCELERATING" ∧
    scoreNarrative nDeFiHigh = some
      { narrative := "DeFi"
        action := "ACCUMULATE"
        tokens := ["JUPyiwrYJFskUPiHa7hkeR8VUtAeFoSYbKedZNsDvCN",
                   "DezXAZ8z7PnrnRJjz3wXBoRgixCa6xjnB7YaB1pPB263"]
        reasoning := "DeFi is a high-confidence accelerating narrative with 2 supporting signals. x"
        confidence := mkRat 85 100
        risk := "MEDIUM"
        suggested_allocation := "5-10% of portfolio" } ∧
    (findAlpha [nDeFiHigh]).Perm ([nDeFiHigh].filterMap scoreNarrative) := by
  have h := claim_C1 nDeFiHigh rfl rfl
  exact ⟨rfl, rfl, by rw [h.1]; decide, h.2 [nDeFiHigh]⟩

/-- C2: a narrative with confidence MEDIUM makes the loop body push exactly
one opportunity with risk LOW: action DCA, confidence 0.60 and allocation
"2-5% of portfolio" when the direction is ACCELERATING, otherwise action
WATCHLIST, confidence 0.40 and allocation "Watch only". -/
theorem claim_C2 (n : Narrative) (h : n.confidence = "MEDIUM") :
    (n.direction = "ACCELERATING" → scoreNarrative n = some
      { narrative := n.name
        action := "DCA"
        tokens := lookupTokens n.name
        reasoning := n.name ++ " showing " ++ toLowerCase n.direction ++ " trend. "
          ++ n.explanation
        confidence := mkRat 60 100
        risk := "LOW"
        suggested_allocation := "2-5% of portfolio" }) ∧
    (n.direction ≠ "ACCELERATING" → scoreNarrative n = some
      { narrative := n.name
        action := "WATCHLIST"
        tokens := lookupTokens n.name
        reasoning := n.name ++ " showing " ++ toLowerCase n.direction ++ " trend. "
          ++ n.explanation
        confidence := mkRat 40 100
        risk := "LOW"
        suggested_allocation := "Watch only" }) := by
  constructor <;> intro hd <;> simp [scoreNarrative, h, hd]

/-- C2 witness: the theorem applied to a MEDIUM ACCELERATING narrative and a
MEDIUM STABLE narrative. -/
theorem claim_C2_witness :
    nTradingMed.confidence = "MEDIUM" ∧ nTradingMed.direction = "ACCELERATING" ∧
    nRwaMed.confidence = "MEDIUM" ∧ nRwaMed.direction ≠ "ACCELERATING" ∧
    scoreNarrative nTradingMed = some
      { narrative := "Trading"
        action := "DCA"
        tokens := ["JUPyiwrYJFskUPiHa7hkeR8VUtAeFoSYbKedZNsDvCN"]
        reasoning := "Trading showing accelerating trend. y"
        confidence := mkRat 60 100
        risk := "LOW"
        suggested_allocation := "2-5% of portfolio" } ∧
    scoreNarrative nRwaMed = some
      { narrative := "RWA"
        action := "WATCHLIST"
        tokens := []
        reasoning := "RWA showing stable trend. z"
        confidence := mkRat 40 100
        risk := "LOW"
        suggested_allocation := "Watch only" } := by
  refine ⟨rfl, rfl, rfl, by decide, ?_, ?_⟩
  · rw [(claim_C2 nTradingMed rfl).1 rfl]; decide
  · rw [(claim_C2 nRwaMed rfl).2 (by decide)]; decide

/-- C3: a narrative matching neither (HIGH, ACCELERATING) nor (MEDIUM, any)
makes the loop body push nothing, and removing such a narrative from the
input leaves the output of findAlpha unchanged. -/
theorem claim_C3 (n : Narrative)
    (h1 : ¬(n.confidence = "HIGH" ∧ n.direction = "ACCELERATING"))
    (h2 : n.confidence ≠ "MEDIUM") :
    scoreNarrative n = none ∧
    ∀ ns₁ ns₂ : List Narrative, findAlpha (ns₁ ++ n :: ns₂) = findAlpha (ns₁ ++ ns₂) := by
  have hs : scoreNarrative n = none := by simp [scoreNarrative, h1, h2]
  refine ⟨hs, fun ns₁ ns₂ => ?_⟩
  unfold findAlpha
  rw [List.filterMap_append, List.filterMap_append, List.filterMap_cons_none hs]

/-- C3 witness: the theorem applied to a LOW-confidence narrative sitting
between two matching narratives. -/
theorem claim_C3_witness :
    ¬(nLow.confidence = "HIGH" ∧ nLow.direction = "ACCELERATING") ∧
    nLow.confidence ≠ "MEDIUM" ∧
    scoreNarrative nLow = none ∧
    findAlpha ([nDeFiHigh] ++ nLow :: [nTradingMed]) =
      findAlpha ([nDeFiHigh] ++ [nTradingMed]) := by
  have h := claim_C3 nLow (by decide) (by decide)
  exact ⟨by decide, by decide, h.1, h.2 [nDeFiHigh] [nTradingMed]⟩

end AlphaAgent

namespace AlphaAgent

/-- The sort comparator is transitive. -/
theorem confDesc_trans (a b c : AlphaOpportunity) :
    confDesc a b → confDesc b c → confDesc a c := by
  simp only [confDesc, decide_eq_true_eq]
  exact fun h1 h2 => le_trans h2 h1

/-- The sort comparator is total. -/
theorem confDesc_total (a b : AlphaOpportunity) : confDesc a b || confDesc b a := by
  simp only [confDesc, Bool.or_eq_true, decide_eq_true_eq]
  exact le_total b.confidence a.confidence

/-- C4: the output of findAlpha is sorted by numeric confidence in
descending order, and the sort is stable: two opportunities that the loop
produced in a given relative order (a two-element sublist of the filterMap,
which lists them in the order of the narratives that produced them) with
equal confidence keep that relative order in the output. -/
theorem claim_C4 (ns : List Narrative) :
    List.Pairwise (fun a b => b.confidence ≤ a.confidence) (findAlpha ns) ∧
    ∀ a b : AlphaOpportunity, b.confidence = a.confidence →
      [a, b].Sublist (ns.filterMap scoreNarrative) →
      [a, b].Sublist (findAlpha ns) := by
  constructor
  · have h := List.sorted_mergeSort confDesc_trans confDesc_total
      (ns.filterMap scoreNarrative)
    exact h.imp (fun hab => by simpa [confDesc] using hab)
  · intro a b hconf hsub
    unfold findAlpha
    refine List.sublist_mergeSort confDesc_trans confDesc_total ?_ hsub
    simp [List.pairwise_cons, confDesc, hconf]

/-- C4 witness: the theorem applied to two MEDIUM STABLE narratives whose
opportunities share the confidence 0.40. -/
theorem claim_C4_witness :
    oMeme.confidence = oRwa.confidence ∧
    [oRwa, oMeme].Sublist ([nRwaMed, nMemeMed].filterMap scoreNarrative) ∧
    List.Pairwise (fun a b : AlphaOpportunity => b.confidence ≤ a.confidence)
      (findAlpha [nRwaMed, nMemeMed]) ∧
    [oRwa, oMeme].Sublist (findAlpha [nRwaMed, nMemeMed]) := by
  have h := claim_C4 [nRwaMed, nMemeMed]
  have heq : [nRwaMed, nMemeMed].filterMap scoreNarrative = [oRwa, oMeme] := by decide
  have hsub : [oRwa, oMeme].Sublist ([nRwaMed, nMemeMed].filterMap scoreNarrative) := by
    rw [heq]
  exact ⟨by decide, hsub, h.1, h.2 oRwa oMeme (by decide) hsub⟩

/-- Away from the `Object.prototype` property names, the pure lookup used
in the scorer model agrees with the full prototype-chain semantics of the
bracket access. -/
theorem tokensValue_agrees (name : String)
    (h : toLowerCase name ∉ objectProtoProps) :
    tokensValue name = JsValue.arr (lookupTokens name) := by
  cases hl : NARRATIVE_TOKENS.lookup (toLowerCase name) with
  | none => simp [tokensValue, tokensBracket, jsOrEmptyArr, lookupTokens, hl, h]
  | some ts => simp [tokensValue, tokensBracket, jsOrEmptyArr, lookupTokens, hl]

/-- C5: the code falsifies the claimed totality of the lookup.  The name
"Constructor" lower-cases to "constructor", which is not a key of the
table, yet the bracket access finds the inherited
`Object.prototype.constructor` — truthy, so `|| []` never fires — and the
bound tokens value is not an array at all, let alone the empty one (the
`/alpha` assembler's `o.tokens.map` then throws a TypeError).  For names
clear of `Object.prototype`, lookup is case-insensitive and a missing key
does default to the empty array, as the last two conjuncts show. -/
theorem claim_C5_bug :
    NARRATIVE_TOKENS.lookup (toLowerCase "Constructor") = none ∧
    tokensValue "Constructor" = JsValue.protoMember "constructor" ∧
    (∀ ts : List String, tokensValue "Constructor" ≠ JsValue.arr ts) ∧
    tokensValue "Gaming" = JsValue.arr [] ∧
    tokensValue "DeFi" = tokensValue "defi" := by
  have hc : tokensValue "Constructor" = JsValue.protoMember "constructor" := by decide
  refine ⟨by decide, hc, ?_, by decide, by decide⟩
  intro ts h
  rw [hc] at h
  cases h

/-- C6: the reasoning string of every emitted opportunity is exactly the
template for its case: the ACCUMULATE template with the count of supporting
signals (0 when absent) in the (HIGH, ACCELERATING) case, and the trend
template with the lower-cased direction in the MEDIUM cases. -/
theorem claim_C6 (n : Narrative) (o : AlphaOpportunity)
    (h : scoreNarrative n = some o) :
    (n.confidence = "HIGH" ∧ n.direction = "ACCELERATING" →
      o.reasoning = n.name ++ " is a high-confidence accelerating narrative with "
        ++ toString (signalsCount n) ++ " supporting signals. " ++ n.explanation) ∧
    (n.confidence = "MEDIUM" →
      o.reasoning = n.name ++ " showing " ++ toLowerCase n.direction ++ " trend. "
        ++ n.explanation) := by
  by_cases h1 : n.confidence = "HIGH" ∧ n.direction = "ACCELERATING"
  · unfold scoreNarrative at h
    rw [if_pos h1] at h
    injection h with h'
    subst h'
    refine ⟨fun _ => rfl, fun hm => ?_⟩
    rw [hm] at h1
    exact absurd h1.1 (by decide)
  · by_cases h2 : n.confidence = "MEDIUM"
    · unfold scoreNarrative at h
      rw [if_neg h1, if_pos h2] at h
      injection h with h'
      subst h'
      exact ⟨fun hha => absurd hha h1, fun _ => rfl⟩
    · unfold scoreNarrative at h
      rw [if_neg h1, if_neg h2] at h
      cases h

/-- C6 witness: the theorem applied to the spec's worked example. -/
theorem claim_C6_witness :
    scoreNarrative nDeFiHigh = some oDeFi ∧
    nDeFiHigh.confidence = "HIGH" ∧ nDeFiHigh.direction = "ACCELERATING" ∧
    oDeFi.reasoning =
      "DeFi is a high-confidence accelerating narrative with 2 supporting signals. x" := by
  have h := claim_C6 nDeFiHigh oDeFi (by decide)
  refine ⟨by decide, rfl, rfl, ?_⟩
  rw [h.1 ⟨rfl, rfl⟩]
  decide

end AlphaAgent

namespace AlphaAgent

/-- C7 counterexample: a non-2xx response (status 500) whose body parses
with a well-formed narratives array is returned as-is, not as the empty
sequence — the source never consults the status code. -/
theorem claim_C7_counterexample :
    fetchNarratives (FetchResult.response 500 (JsonBody.parsed (some [nLow]))) = [nLow] ∧
    [nLow] ≠ ([] : List Narrative) := by
  exact ⟨rfl, by decide⟩

/-- C7 (amended): fetchNarratives never raises — every thrown failure
(rejected fetch, non-JSON body) is caught and yields the empty sequence, a
missing or falsy narratives field yields the empty sequence, and the HTTP
status code is never consulted. -/
theorem claim_C7_thm :
    (∀ r e, fetchBody r = Except.error e → fetchNarratives r = []) ∧
    (∀ st, fetchNarratives (FetchResult.response st (JsonBody.parsed none)) = []) ∧
    (∀ st st' b, fetchNarratives (FetchResult.response st b) =
      fetchNarratives (FetchResult.response st' b)) := by
  refine ⟨?_, fun st => rfl, fun st st' b => ?_⟩
  · intro r e h
    unfold fetchNarratives
    rw [h]
  · cases b with
    | notJson => rfl
    | parsed o => cases o <;> rfl

/-- C7 witness: the amended theorem applied to a rejected fetch and to a
404 with a non-JSON body. -/
theorem claim_C7_witness :
    fetchBody FetchResult.fetchThrows = Except.error "fetch failed" ∧
    fetchNarratives FetchResult.fetchThrows = [] ∧
    fetchBody (FetchResult.response 404 JsonBody.notJson) = Except.error "invalid json" ∧
    fetchNarratives (FetchResult.response 404 JsonBody.notJson) = [] :=
  ⟨rfl, claim_C7_thm.1 _ _ rfl, rfl, claim_C7_thm.1 _ _ rfl⟩

/-- C8 counterexample: a token whose fetched price is 0 is present in the
price mapping, yet its token_prices entry is the absent marker null
(`prices.get(t) || null` treats the number 0 as falsy), not the fetched
price 0. -/
theorem claim_C8_counterexample :
    List.lookup "X" [("X", (0 : Rat))] = some 0 ∧
    tokenPriceEntries oZeroTok [("X", (0 : Rat))] = [("X", (none : Option Rat))] ∧
    (some (0 : Rat) ≠ (none : Option Rat)) := by
  decide

/-- C8 (amended): the token_prices object has exactly one entry per token
identifier of the opportunity — the key list is exactly the token list, no
identifier is omitted, and building it is total — and the value of each
entry is the fetched price when it is non-zero, and the absent marker null
when the price is missing or zero. -/
theorem claim_C8_thm (o : AlphaOpportunity) (prices : List (String × Rat)) :
    (tokenPriceEntries o prices).map Prod.fst = o.tokens ∧
    ∀ t, t ∈ o.tokens →
      ((t, jsOrNull (prices.lookup t)) ∈ tokenPriceEntries o prices ∧
       ∀ v, (t, v) ∈ tokenPriceEntries o prices → v = jsOrNull (prices.lookup t)) := by
  refine ⟨by simp [tokenPriceEntries, Function.comp_def], fun t ht => ⟨?_, ?_⟩⟩
  · exact List.mem_map.mpr ⟨t, ht, rfl⟩
  · intro v hv
    obtain ⟨x, _, hxe⟩ := List.mem_map.mp hv
    injection hxe with e1 e2
    subst e1
    exact e2.symm

/-- C8 witness: the amended theorem applied to the DeFi opportunity and a
mapping pricing its first token at 3/2 and omitting its second. -/
theorem claim_C8_witness :
    "JUPyiwrYJFskUPiHa7hkeR8VUtAeFoSYbKedZNsDvCN" ∈ oDeFi.tokens ∧
    (tokenPriceEntries oDeFi pJup).map Prod.fst = oDeFi.tokens ∧
    ("JUPyiwrYJFskUPiHa7hkeR8VUtAeFoSYbKedZNsDvCN",
      jsOrNull (pJup.lookup "JUPyiwrYJFskUPiHa7hkeR8VUtAeFoSYbKedZNsDvCN"))
      ∈ tokenPriceEntries oDeFi pJup := by
  have h := claim_C8_thm oDeFi pJup
  exact ⟨by decide, h.1, (h.2 _ (by decide)).1⟩

/-- C9: getTokenPrices on the empty mint list returns the empty mapping with
no network call performed, whatever the upstream would have answered. -/
theorem claim_C9 (outcome : PriceFetchOutcome) :
    getTokenPrices [] outcome = ([], false) ∧
    ∀ outcome', getTokenPrices [] outcome = getTokenPrices [] outcome' :=
  ⟨rfl, fun _ => rfl⟩

/-- Every opportunity the loop pushes carries the name of the narrative that
produced it, verbatim. -/
theorem scoreNarrative_name (n : Narrative) (o : AlphaOpportunity)
    (h : scoreNarrative n = some o) : o.narrative = n.name := by
  unfold scoreNarrative at h
  split at h
  · injection h with h'; subst h'; rfl
  · split at h
    · injection h with h'; subst h'; rfl
    · cases h

/-- C10: findAlpha emits at most one opportunity per input narrative — its
output is never longer than its input — and every emitted opportunity was
produced by some input narrative whose name its narrative field carries
verbatim. -/
theorem claim_C10 (ns : List Narrative) :
    (findAlpha ns).length ≤ ns.length ∧
    ∀ o ∈ findAlpha ns, ∃ n ∈ ns, scoreNarrative n = some o ∧ o.narrative = n.name := by
  constructor
  · unfold findAlpha
    rw [List.length_mergeSort]
    exact List.length_filterMap_le _ _
  · intro o ho
    unfold findAlpha at ho
    rw [List.mem_mergeSort, List.mem_filterMap] at ho
    obtain ⟨n, hn, hsome⟩ := ho
    exact ⟨n, hn, hsome, scoreNarrative_name n o hsome⟩

/-- C10 witness: the theorem applied to a two-narrative input of which only
one produces an opportunity. -/
theorem claim_C10_witness :
    (findAlpha [nDeFiHigh, nLow]).length ≤ 2 ∧
    oDeFi ∈ findAlpha [nDeFiHigh, nLow] ∧
    ∃ n ∈ [nDeFiHigh, nLow], scoreNarrative n = some oDeFi ∧ oDeFi.narrative = n.name := by
  have h := claim_C10 [nDeFiHigh, nLow]
  have hm : oDeFi ∈ findAlpha [nDeFiHigh, nLow] := by
    unfold findAlpha
    rw [List.mem_mergeSort]
    decide
  exact ⟨h.1, hm, h.2 oDeFi hm⟩

end AlphaAgent
